import Mathlib

/-!
Shallow embedding of the bun-ready policy / baseline / aggregation engine.

Sources embedded here:
* `src/analyze.ts` — `aggregateSeverity`
* `src/ci_summary.ts` — `calculateExitCode`
* `src/policy.ts` — `applySeverityChange`, `parseRuleArgs`, `findMatchingRule`,
  `applyPolicy`, `PolicyManager.getExitCode`
* `src/baseline.ts` — `createFindingFingerprint`, `compareFindings`, `loadBaseline`
* `src/types.ts` — the data model (`Severity`, `Finding`, `PackageAnalysis`,
  `PolicyRule`, `FindingFingerprint`, `BaselineComparison`, ...)

TypeScript strings are modelled as Lean `String`; `undefined`-able fields as
`Option`; JS array iteration with early `return` as `List.any`/`List.find?`;
the insertion-ordered JS `Map` as an association list with JS `Map.set`
semantics (overwrite keeps the original position, fresh keys append).
`String.prototype.trim`/`toLowerCase` are modelled by `jsTrim`/`jsToLower`
below (they agree with JS on ASCII input).  `Array.prototype.sort()` on
strings is modelled as sorting with respect to the linear order on `String`.
The MD5 digest from `node:crypto` is an external collaborator; it is modelled
as a deterministic digest function (the identity on the normalized input),
which is sound for every equal-hash property proved below.
-/

namespace BunReady

/-- `src/types.ts`: `type Severity = "green" | "yellow" | "red"`. -/
inductive Severity where
  | green
  | yellow
  | red
deriving DecidableEq, Repr, Fintype

/-- `src/types.ts`: `type FailOnPolicy = "green" | "yellow" | "red"`. -/
abbrev FailOnPolicy := Severity

/-- The numeric severity order used by `applyPolicy`
(`const severityOrder = { green: 0, yellow: 1, red: 2 }`). -/
def severityOrder : Severity → Nat
  | .green => 0
  | .yellow => 1
  | .red => 2

/-- `src/types.ts`: `type Finding` (id, title, severity, details, hints). -/
structure Finding where
  id : String
  title : String
  severity : Severity
  details : List String
  hints : List String
deriving DecidableEq, Repr

/-- `src/types.ts`: `type PackageAnalysis`.  Only the fields read by the
embedded core functions are carried (`aggregateSeverity` reads `severity`
alone; `name`, `path`, `findings` are kept for context). -/
structure PackageAnalysis where
  name : String
  path : String
  severity : Severity
  findings : List Finding
deriving Repr

/-- `src/analyze.ts` `aggregateSeverity(packages, overallSeverity)`:
two early returns on the root severity, then a scan for any red package,
then a scan for any yellow package. -/
def aggregateSeverity (packages : List PackageAnalysis)
    (overallSeverity : Severity) : Severity :=
  if overallSeverity = .red then .red
  else if overallSeverity = .yellow then .yellow
  else if packages.any (fun pkg => pkg.severity = .red) then .red
  else if packages.any (fun pkg => pkg.severity = .yellow) then .yellow
  else .green

/-- `src/ci_summary.ts` `calculateExitCode(severity, failOn)`. -/
def calculateExitCode (severity : Severity)
    (failOn : Option FailOnPolicy) : Nat :=
  match failOn with
  | none =>
    -- Default behavior: green=0, yellow=2, red=3
    if severity = .green then 0
    else if severity = .yellow then 2
    else 3
  | some f =>
    if f = .green then
      -- Fail on anything not green
      if severity = .green then 0 else 3
    else if f = .yellow then
      -- Fail on red only
      if severity = .red then 3 else 0
    else
      -- failOn === "red" (same as default)
      if severity = .green then 0
      else if severity = .yellow then 2
      else 3

namespace PolicyManager

/-- `src/policy.ts` `PolicyManager.getExitCode(verdict, failOn)`. -/
def getExitCode (verdict : Severity) (failOn : Option FailOnPolicy) : Nat :=
  if failOn = some .yellow ∧ verdict = .yellow then 3
  else if verdict = .red then 3
  else if verdict = .yellow then 2
  else 0

end PolicyManager

/-- `src/types.ts`: `type RuleAction = "fail" | "warn" | "off" | "ignore"`. -/
inductive RuleAction where
  | fail
  | warn
  | off
  | ignore
deriving DecidableEq, Repr

/-- `src/types.ts`: `type SeverityChange = "upgrade" | "downgrade" | "same"`. -/
inductive SeverityChange where
  | upgrade
  | downgrade
  | same
deriving DecidableEq, Repr

/-- `src/types.ts`: `type PolicyRule` (optional action / severityChange / reason). -/
structure PolicyRule where
  id : String
  action : Option RuleAction := none
  severityChange : Option SeverityChange := none
  reason : Option String := none
deriving DecidableEq, Repr

/-- `src/policy.ts` `applySeverityChange(originalSeverity, change)`. -/
def applySeverityChange (originalSeverity : Severity)
    (change : SeverityChange) : Severity :=
  if change = .same then originalSeverity
  else if change = .upgrade then
    if originalSeverity = .green then .yellow
    else if originalSeverity = .yellow then .red
    else .red -- red stays red
  else
    -- downgrade
    if originalSeverity = .red then .yellow
    else if originalSeverity = .yellow then .green
    else .green -- green stays green

/-- JS `String.prototype.split` with a character-class separator: split the
character list at every separator character.  Always returns at least one
(possibly empty) segment, exactly as in JS. -/
def splitAll (isSep : Char → Bool) : List Char → List (List Char)
  | [] => [[]]
  | c :: rest =>
    if isSep c then [] :: splitAll isSep rest
    else
      match splitAll isSep rest with
      | [] => [[c]]
      | seg :: segs => (c :: seg) :: segs

/-- JS `s.split(regex, limit)`: the full split truncated to the first
`limit` segments. -/
def jsSplitLimit (limit : Nat) (isSep : Char → Bool) (s : String) : List String :=
  ((splitAll isSep s.data).take limit).map (fun l => String.mk l)

/-- JS `String.prototype.trim`: drop whitespace from both ends. -/
def jsTrim (s : String) : String :=
  String.mk
    (((s.data.dropWhile Char.isWhitespace).reverse.dropWhile
        Char.isWhitespace).reverse)

/-- JS `String.prototype.toLowerCase`, character-wise. -/
def jsToLower (s : String) : String :=
  String.mk (s.data.map Char.toLower)

/-- Code-unit comparison behind the default JS `Array.prototype.sort()`
on strings: lexicographic on the character sequences (JS compares UTF-16
code units; this agrees with codepoint order on all BMP text). -/
def charListLe : List Char → List Char → Bool
  | [], _ => true
  | _ :: _, [] => false
  | a :: as, b :: bs =>
    if a.toNat < b.toNat then true
    else if b.toNat < a.toNat then false
    else charListLe as bs

/-- The string order used to model `details.sort()`. -/
def jsStrLeR (a b : String) : Prop := charListLe a.data b.data = true

instance : DecidableRel jsStrLeR :=
  fun a b => inferInstanceAs (Decidable (charListLe a.data b.data = true))

/-- The separator class of `src/policy.ts` `parseRuleArgs`: the regex `[=:]`. -/
def isRuleSep (c : Char) : Bool := c == '=' || c == ':'

/-- The string-to-enum cast behind
`["fail", "warn", "off", "ignore"].includes(actionOrChange)`. -/
def ruleActionOfString (s : String) : Option RuleAction :=
  if s = "fail" then some .fail
  else if s = "warn" then some .warn
  else if s = "off" then some .off
  else if s = "ignore" then some .ignore
  else none

/-- The string-to-enum cast behind
`["upgrade", "downgrade", "same"].includes(actionOrChange)`. -/
def severityChangeOfString (s : String) : Option SeverityChange :=
  if s = "upgrade" then some .upgrade
  else if s = "downgrade" then some .downgrade
  else if s = "same" then some .same
  else none

/-- `src/policy.ts` `parseRuleArgs(ruleArgs)`: for each argument,
`arg.split(/[=:]/, 2)`, skip unless exactly two non-empty trimmed parts,
then classify the second part as an action or a severity change. -/
def parseRuleArgs (ruleArgs : List String) : List PolicyRule :=
  ruleArgs.foldl
    (fun rules arg =>
      match jsSplitLimit 2 isRuleSep arg with
      | [p0, p1] =>
        let id := jsTrim p0
        let actionOrChange := jsTrim p1
        if id = "" ∨ actionOrChange = "" then rules
        else
          match ruleActionOfString actionOrChange with
          | some a => rules ++ [{ id := id, action := some a }]
          | none =>
            match severityChangeOfString actionOrChange with
            | some c => rules ++ [{ id := id, severityChange := some c }]
            | none => rules
      | _ => rules)
    []

/-- The CLI spelling of a `RuleAction`. -/
def actionString : RuleAction → String
  | .fail => "fail"
  | .warn => "warn"
  | .off => "off"
  | .ignore => "ignore"

/-- The CLI spelling of a `SeverityChange`. -/
def changeString : SeverityChange → String
  | .upgrade => "upgrade"
  | .downgrade => "downgrade"
  | .same => "same"

/-- `src/types.ts`: `type PolicyThresholds`. -/
structure PolicyThresholds where
  maxWarnings : Option Nat := none
  maxPackagesRed : Option Nat := none
  maxPackagesYellow : Option Nat := none
deriving DecidableEq, Repr

/-- `src/types.ts`: `type BaselineMetrics`. -/
structure BaselineMetrics where
  totalFindings : Nat
  greenCount : Nat
  yellowCount : Nat
  redCount : Nat
  packagesGreen : Nat
  packagesYellow : Nat
  packagesRed : Nat
deriving DecidableEq, Repr

/-- `src/types.ts`: `type PolicyConfig`. -/
structure PolicyConfig where
  rules : Option (List PolicyRule) := none
  thresholds : Option PolicyThresholds := none
  failOn : Option FailOnPolicy := none
deriving DecidableEq, Repr

/-- `src/types.ts`: `type AppliedPolicyRule`. -/
structure AppliedPolicyRule where
  findingId : String
  action : RuleAction
  originalSeverity : Option Severity := none
  newSeverity : Option Severity := none
  reason : Option String := none
deriving DecidableEq, Repr

/-- `src/types.ts`: `type PolicySummary`. -/
structure PolicySummary where
  rulesApplied : Nat
  findingsModified : Nat
  findingsDisabled : Nat
  severityUpgraded : Nat
  severityDowngraded : Nat
  rules : List AppliedPolicyRule
deriving DecidableEq, Repr

/-- `src/policy.ts` `findMatchingRule(findingId, rules)`: first exact-id
match, else first wildcard rule. -/
def findMatchingRule (findingId : String) (rules : List PolicyRule) :
    Option PolicyRule :=
  match rules.find? (fun rule => rule.id == findingId) with
  | some rule => some rule
  | none => rules.find? (fun rule => rule.id == "*")

/-- The contribution of one finding to the `applyPolicy` loop state: the
(optionally) emitted finding, the (optionally) recorded audit entry, and the
increments of the four counters. -/
structure FindingStepResult where
  emitted : Option Finding
  applied : Option AppliedPolicyRule
  modified : Nat
  disabled : Nat
  upgraded : Nat
  downgraded : Nat
deriving DecidableEq, Repr

/-- One iteration of the `for (const finding of findings)` loop in
`src/policy.ts` `applyPolicy`.  The loop body touches no state except the
accumulators, so it is embedded as a pure per-finding step. -/
def applyRuleToFinding (rules : List PolicyRule) (finding : Finding) :
    FindingStepResult :=
  match findMatchingRule finding.id rules with
  | none =>
    -- No rule applies, keep finding as-is
    { emitted := some finding, applied := none,
      modified := 0, disabled := 0, upgraded := 0, downgraded := 0 }
  | some rule =>
    -- applied.action = rule.action || "ignore"
    let appliedAction := rule.action.getD .ignore
    if rule.action = some .off ∨ rule.action = some .ignore then
      -- disabled: count it, record the audit entry, skip the finding
      { emitted := none
        applied := some { findingId := finding.id, action := appliedAction,
                          originalSeverity := some finding.severity }
        modified := 0, disabled := 1, upgraded := 0, downgraded := 0 }
    else
      match rule.severityChange with
      | some change =>
        -- First apply action if present, then the severity change
        let afterAction :=
          if rule.action = some .fail then Severity.red
          else if rule.action = some .warn then Severity.yellow
          else finding.severity
        let newSeverity := applySeverityChange afterAction change
        { emitted := some { finding with severity := newSeverity }
          applied := some { findingId := finding.id, action := appliedAction,
                            originalSeverity := some finding.severity,
                            newSeverity := some newSeverity,
                            reason := rule.reason }
          modified := 1, disabled := 0,
          upgraded := if change = .upgrade then 1 else 0,
          downgraded := if change = .downgrade then 1 else 0 }
      | none =>
        if rule.action = some .fail ∨ rule.action = some .warn then
          -- Pure action without severity change
          let newSeverity :=
            if rule.action = some .fail then Severity.red
            else Severity.yellow
          { emitted := some { finding with severity := newSeverity }
            applied := some { findingId := finding.id, action := appliedAction,
                              originalSeverity := some finding.severity,
                              newSeverity := some newSeverity,
                              reason := rule.reason }
            modified := 1, disabled := 0,
            upgraded :=
              if newSeverity ≠ finding.severity ∧
                  severityOrder newSeverity > severityOrder finding.severity
              then 1 else 0,
            downgraded :=
              if newSeverity ≠ finding.severity ∧
                  ¬ severityOrder newSeverity > severityOrder finding.severity
              then 1 else 0 }
        else
          -- Matched rule with neither suppressing action nor severity change
          { emitted := some { finding with severity := finding.severity }
            applied := some { findingId := finding.id, action := appliedAction,
                              originalSeverity := some finding.severity,
                              newSeverity := some finding.severity,
                              reason := rule.reason }
            modified := 0, disabled := 0, upgraded := 0, downgraded := 0 }

/-- The threshold bookkeeping at the end of `applyPolicy`:
`if (thresholds && metrics) { ... rulesApplied++ ... }`. -/
def thresholdExtraRules (thresholds : Option PolicyThresholds)
    (metrics : Option BaselineMetrics) : Nat :=
  match thresholds, metrics with
  | some t, some m =>
    (match t.maxPackagesRed with
     | some maxRed => if m.packagesRed > maxRed then 1 else 0
     | none => 0)
    +
    (match t.maxPackagesYellow with
     | some maxYellow => if m.packagesYellow > maxYellow then 1 else 0
     | none => 0)
  | _, _ => 0

/-- `src/policy.ts` `applyPolicy(findings, policy, metrics)`: apply the
matching rule to every finding in order, accumulating the modified findings,
the audit trail and the counters, then add the threshold bookkeeping to
`rulesApplied`. -/
def applyPolicy (findings : List Finding) (policy : PolicyConfig)
    (metrics : Option BaselineMetrics) : List Finding × PolicySummary :=
  let rules := policy.rules.getD []
  let steps := findings.map (applyRuleToFinding rules)
  let modifiedFindings := steps.filterMap (fun st => st.emitted)
  let appliedRules := steps.filterMap (fun st => st.applied)
  let summary : PolicySummary :=
    { rulesApplied :=
        appliedRules.length + thresholdExtraRules policy.thresholds metrics
      findingsModified := (steps.map (fun st => st.modified)).sum
      findingsDisabled := (steps.map (fun st => st.disabled)).sum
      severityUpgraded := (steps.map (fun st => st.upgraded)).sum
      severityDowngraded := (steps.map (fun st => st.downgraded)).sum
      rules := appliedRules }
  (modifiedFindings, summary)

/-- Claim-side counting function for severity upgrades, written from the
amended reading of the spec: with a severity change present the counter
follows the direction of the change; with only an action present it compares
final against original severity. -/
def specUpgradeContribution (rules : List PolicyRule) (f : Finding) : Nat :=
  match findMatchingRule f.id rules with
  | none => 0
  | some rule =>
    if rule.action = some .off ∨ rule.action = some .ignore then 0
    else
      match rule.severityChange with
      | some .upgrade => 1
      | some .downgrade => 0
      | some .same => 0
      | none =>
        match rule.action with
        | some .fail =>
          if severityOrder .red > severityOrder f.severity then 1 else 0
        | some .warn =>
          if severityOrder .yellow > severityOrder f.severity then 1 else 0
        | _ => 0

/-- Claim-side counting function for severity downgrades, dual to
`specUpgradeContribution`. -/
def specDowngradeContribution (rules : List PolicyRule) (f : Finding) : Nat :=
  match findMatchingRule f.id rules with
  | none => 0
  | some rule =>
    if rule.action = some .off ∨ rule.action = some .ignore then 0
    else
      match rule.severityChange with
      | some .upgrade => 0
      | some .downgrade => 1
      | some .same => 0
      | none =>
        match rule.action with
        | some .fail =>
          if severityOrder .red < severityOrder f.severity then 1 else 0
        | some .warn =>
          if severityOrder .yellow < severityOrder f.severity then 1 else 0
        | _ => 0

theorem applyPolicy_modifiedFindings (findings : List Finding)
    (policy : PolicyConfig) (metrics : Option BaselineMetrics) :
    (applyPolicy findings policy metrics).1 =
      findings.filterMap
        (fun f => (applyRuleToFinding (policy.rules.getD []) f).emitted) := by
  unfold applyPolicy
  simp only [List.filterMap_map]
  rfl

theorem applyPolicy_severityUpgraded (findings : List Finding)
    (policy : PolicyConfig) (metrics : Option BaselineMetrics) :
    (applyPolicy findings policy metrics).2.severityUpgraded =
      (findings.map
        (fun f => (applyRuleToFinding (policy.rules.getD []) f).upgraded)).sum := by
  unfold applyPolicy
  simp only [List.map_map]
  rfl

theorem applyPolicy_severityDowngraded (findings : List Finding)
    (policy : PolicyConfig) (metrics : Option BaselineMetrics) :
    (applyPolicy findings policy metrics).2.severityDowngraded =
      (findings.map
        (fun f => (applyRuleToFinding (policy.rules.getD []) f).downgraded)).sum := by
  unfold applyPolicy
  simp only [List.map_map]
  rfl

/-- `src/types.ts`: `type FindingFingerprint` (`packageName` is optional). -/
structure FindingFingerprint where
  id : String
  packageName : Option String := none
  severity : Severity
  detailsHash : String
deriving DecidableEq, Repr

/-- The `node:crypto` MD5 hex digest is an external collaborator; it is
modelled as a deterministic digest (the identity on the normalized input),
sufficient for every equal-hash property proved here. -/
def md5Hex (s : String) : String := s

/-- `src/baseline.ts` `createFindingFingerprint(finding, packageName)`:
details are trimmed, lower-cased, sorted, joined with `"|"` and hashed;
a missing or empty package name defaults to `"root"`. -/
def createFindingFingerprint (finding : Finding)
    (packageName : Option String) : FindingFingerprint :=
  let normalizedDetails :=
    String.intercalate "|"
      (List.insertionSort jsStrLeR
        (finding.details.map (fun d => jsToLower (jsTrim d))))
  let detailsHash := md5Hex normalizedDetails
  { id := finding.id
    packageName := some
      (match packageName with
       | some s => if s = "" then "root" else s
       | none => "root")
    severity := finding.severity
    detailsHash := detailsHash }

/-- The composite key of `src/baseline.ts` `compareFindings`:
`` `${fp.id}:${fp.packageName}:${fp.detailsHash}` `` (severity excluded; a
JS template literal renders an undefined `packageName` as `"undefined"`). -/
def fpKey (fp : FindingFingerprint) : String :=
  fp.id ++ ":" ++ fp.packageName.getD "undefined" ++ ":" ++ fp.detailsHash

/-- The insertion-ordered JS `Map<string, FindingFingerprint>`. -/
abbrev FingerprintMap := List (String × FindingFingerprint)

/-- JS `Map.prototype.set`: overwriting an existing key keeps its original
position; a fresh key is appended. -/
def mapSet (m : FingerprintMap) (k : String) (v : FindingFingerprint) :
    FingerprintMap :=
  if m.any (fun p => p.1 == k) then
    m.map (fun p => if p.1 == k then (k, v) else p)
  else m ++ [(k, v)]

/-- JS `Map.prototype.get`. -/
def mapGet (m : FingerprintMap) (k : String) : Option FindingFingerprint :=
  (m.find? (fun p => p.1 == k)).map (fun p => p.2)

/-- JS `Map.prototype.has`. -/
def mapHas (m : FingerprintMap) (k : String) : Bool :=
  m.any (fun p => p.1 == k)

/-- The map-building loops of `compareFindings`:
`for (const fp of list) map.set(key(fp), fp)`. -/
def buildFingerprintMap (fps : List FindingFingerprint) : FingerprintMap :=
  fps.foldl (fun m fp => mapSet m (fpKey fp) fp) []

/-- One entry of `BaselineComparison.severityChanges`. -/
structure SeverityChangeEntry where
  fingerprint : FindingFingerprint
  oldSeverity : Severity
  newSeverity : Severity
deriving DecidableEq, Repr

/-- `src/types.ts`: `type BaselineComparison`. -/
structure BaselineComparison where
  newFindings : List FindingFingerprint
  resolvedFindings : List FindingFingerprint
  severityChanges : List SeverityChangeEntry
  isRegression : Bool
  regressionReasons : List String
deriving DecidableEq, Repr

/-- The regression reason string for new red findings. -/
def newRedMessage (newRedFindings : List FindingFingerprint) : String :=
  "New RED findings detected: " ++
    String.intercalate ", " (newRedFindings.map (fun f => f.id))

/-- The regression reason string for severities upgraded to red. -/
def upgradedToRedMessage (upgradedToRed : List SeverityChangeEntry) : String :=
  "Severity upgraded to RED: " ++
    String.intercalate ", " (upgradedToRed.map (fun c => c.fingerprint.id))

/-- `src/baseline.ts` `compareFindings(baseline, current)`: index both sides
by the composite key, diff into new / resolved / severity-changed, then
derive the regression verdict from new red findings and upgrades to red. -/
def compareFindings (baseline current : List FindingFingerprint) :
    BaselineComparison :=
  let baselineMap := buildFingerprintMap baseline
  let currentMap := buildFingerprintMap current
  let newFindings := currentMap.filterMap
    (fun kv => if mapHas baselineMap kv.1 then none else some kv.2)
  let resolvedFindings := baselineMap.filterMap
    (fun kv => if mapHas currentMap kv.1 then none else some kv.2)
  let severityChanges := currentMap.filterMap
    (fun kv =>
      match mapGet baselineMap kv.1 with
      | some baselineFp =>
        if kv.2.severity ≠ baselineFp.severity then
          some { fingerprint := kv.2, oldSeverity := baselineFp.severity,
                 newSeverity := kv.2.severity }
        else none
      | none => none)
  let newRedFindings := newFindings.filter (fun f => f.severity == .red)
  let upgradedToRed := severityChanges.filter (fun c => c.newSeverity == .red)
  let isRegression :=
    decide (newRedFindings.length > 0) || decide (upgradedToRed.length > 0)
  let regressionReasons :=
    (if newRedFindings.length > 0 then [newRedMessage newRedFindings] else [])
    ++
    (if upgradedToRed.length > 0 then [upgradedToRedMessage upgradedToRed]
     else [])
  { newFindings := newFindings, resolvedFindings := resolvedFindings,
    severityChanges := severityChanges, isRegression := isRegression,
    regressionReasons := regressionReasons }

/-- The value space of `JSON.parse` (numbers collapsed to `Int`; none of the
embedded checks inspects numeric values). -/
inductive Json where
  | null
  | bool (b : Bool)
  | num (n : Int)
  | str (s : String)
  | arr (elems : List Json)
  | obj (fields : List (String × Json))

/-- JS `x === null` on a parsed JSON value. -/
def isJsonNull : Json → Bool
  | .null => true
  | _ => false

/-- JS `typeof x === "object"`: true exactly for objects, arrays and null. -/
def jsTypeofIsObject : Json → Bool
  | .null => true
  | .arr _ => true
  | .obj _ => true
  | _ => false

/-- JS property access `x[k]` on a parsed JSON value: a named own property
exists only on objects (array index / length properties are not among the
keys the loader reads). -/
def jprop : Json → String → Option Json
  | .obj fields, k => (fields.find? (fun p => p.1 == k)).map (fun p => p.2)
  | _, _ => none

/-- `typeof x[k] === "string"`. -/
def isStringProp (j : Json) (k : String) : Bool :=
  match jprop j k with
  | some (.str _) => true
  | _ => false

/-- The validation in `src/baseline.ts` `loadBaseline`:
`typeof data === "object" && data !== null && typeof data.version ===
"string" && typeof data.timestamp === "string" &&
Array.isArray(data.findings)`. -/
def hasMinimalBaselineShape (data : Json) : Bool :=
  jsTypeofIsObject data && !(isJsonNull data) &&
  isStringProp data "version" && isStringProp data "timestamp" &&
  (match jprop data "findings" with
   | some (.arr _) => true
   | _ => false)

/-- `src/baseline.ts` `loadBaseline(filePath)`.  The `await
fs.readFile`/`JSON.parse` pipeline is the function's input: `none` when
reading or parsing threw (the `catch` returns null), `some data` when it
produced a JSON value.  The body validates the minimal shape and returns
the data unchanged (`return data as BaselineData`) or null. -/
def loadBaseline (readAndParse : Option Json) : Option Json :=
  match readAndParse with
  | none => none
  | some data =>
    if hasMinimalBaselineShape data then some data
    else none

theorem splitAll_ne_nil (isSep : Char → Bool) (l : List Char) :
    splitAll isSep l ≠ [] := by
  induction l with
  | nil => simp [splitAll]
  | cons c rest ih =>
    unfold splitAll
    by_cases h : isSep c
    · simp [h]
    · simp only [h, Bool.false_eq_true, if_false]
      cases hs : splitAll isSep rest <;> simp

theorem splitAll_cons_not_sep (isSep : Char → Bool) (c : Char)
    (hc : isSep c = false) (l : List Char) :
    splitAll isSep (c :: l) =
      (c :: (splitAll isSep l).headI) :: (splitAll isSep l).tail := by
  cases hs : splitAll isSep l with
  | nil => exact absurd hs (splitAll_ne_nil isSep l)
  | cons seg segs =>
    simp only [splitAll, hc, Bool.false_eq_true, if_false, hs]
    rfl

theorem splitAll_sep_split (isSep : Char → Bool) (s : Char)
    (hs : isSep s = true) :
    ∀ (l1 l2 : List Char), (∀ c ∈ l1, isSep c = false) →
      splitAll isSep (l1 ++ s :: l2) = l1 :: splitAll isSep l2 := by
  intro l1
  induction l1 with
  | nil =>
    intro l2 _
    simp [splitAll, hs]
  | cons c rest ih =>
    intro l2 h
    have hc : isSep c = false := h c (List.mem_cons_self c rest)
    have hrest : ∀ x ∈ rest, isSep x = false :=
      fun x hx => h x (List.mem_cons_of_mem _ hx)
    rw [List.cons_append, splitAll_cons_not_sep isSep c hc, ih l2 hrest]
    rfl

theorem splitAll_no_sep (isSep : Char → Bool) :
    ∀ (l : List Char), (∀ c ∈ l, isSep c = false) →
      splitAll isSep l = [l] := by
  intro l
  induction l with
  | nil => intro; rfl
  | cons c rest ih =>
    intro h
    have hc : isSep c = false := h c (List.mem_cons_self c rest)
    have hrest : ∀ x ∈ rest, isSep x = false :=
      fun x hx => h x (List.mem_cons_of_mem _ hx)
    rw [splitAll_cons_not_sep isSep c hc, ih hrest]
    rfl

theorem jsSplitLimit_combined (id actStr scStr : String)
    (hid : ∀ c ∈ id.data, isRuleSep c = false)
    (hact : ∀ c ∈ actStr.data, isRuleSep c = false)
    (hsc : ∀ c ∈ scStr.data, isRuleSep c = false) :
    jsSplitLimit 2 isRuleSep (id ++ "=" ++ actStr ++ ":" ++ scStr) =
      [id, actStr] := by
  obtain ⟨lid⟩ := id
  obtain ⟨lact⟩ := actStr
  obtain ⟨lsc⟩ := scStr
  have hdata : (String.mk lid ++ "=" ++ String.mk lact ++ ":" ++
      String.mk lsc).data = lid ++ '=' :: (lact ++ ':' :: lsc) := by
    show (((lid ++ ['=']) ++ lact) ++ [':']) ++ lsc =
      lid ++ '=' :: (lact ++ ':' :: lsc)
    simp
  unfold jsSplitLimit
  rw [hdata, splitAll_sep_split isRuleSep '=' rfl lid _ hid,
    splitAll_sep_split isRuleSep ':' rfl lact _ hact,
    splitAll_no_sep isRuleSep lsc hsc]
  rfl

theorem actionString_no_sep (act : RuleAction) :
    ∀ c ∈ (actionString act).data, isRuleSep c = false := by
  cases act <;> decide

theorem changeString_no_sep (sc : SeverityChange) :
    ∀ c ∈ (changeString sc).data, isRuleSep c = false := by
  cases sc <;> decide

theorem jsTrim_actionString (act : RuleAction) :
    jsTrim (actionString act) = actionString act := by
  cases act <;> decide

theorem ruleActionOfString_actionString (act : RuleAction) :
    ruleActionOfString (actionString act) = some act := by
  cases act <;> decide

theorem actionString_ne_empty (act : RuleAction) :
    actionString act ≠ "" := by
  cases act <;> decide

theorem applyRuleToFinding_upgraded_eq (rules : List PolicyRule) (f : Finding) :
    (applyRuleToFinding rules f).upgraded = specUpgradeContribution rules f := by
  obtain ⟨fid, ftitle, fsev, fdetails, fhints⟩ := f
  unfold applyRuleToFinding specUpgradeContribution
  cases h : findMatchingRule fid rules with
  | none => rfl
  | some rule =>
    obtain ⟨rid, ract, rsc, rreason⟩ := rule
    rcases ract with _ | a
    · rcases rsc with _ | c
      · rfl
      · cases c <;> rfl
    · cases a <;> rcases rsc with _ | c <;> try cases c
      all_goals cases fsev <;> rfl

theorem applyRuleToFinding_downgraded_eq (rules : List PolicyRule) (f : Finding) :
    (applyRuleToFinding rules f).downgraded = specDowngradeContribution rules f := by
  obtain ⟨fid, ftitle, fsev, fdetails, fhints⟩ := f
  unfold applyRuleToFinding specDowngradeContribution
  cases h : findMatchingRule fid rules with
  | none => rfl
  | some rule =>
    obtain ⟨rid, ract, rsc, rreason⟩ := rule
    rcases ract with _ | a
    · rcases rsc with _ | c
      · rfl
      · cases c <;> rfl
    · cases a <;> rcases rsc with _ | c <;> try cases c
      all_goals cases fsev <;> rfl

end BunReady

namespace BunReady

/-- C1: the spec requires `aggregateSeverity` to be the maximum severity over
the root severity and all package severities — in particular a red package
must force a red result even when the root severity is yellow.  The code
instead returns early on a yellow root severity and never scans the
packages, so a red package is masked: this theorem evaluates the embedded
code at that failing input. -/
theorem aggregateSeverity_yellow_root_masks_red_package :
    aggregateSeverity
      [{ name := "pkg-a", path := "/repo/packages/pkg-a",
         severity := .red, findings := [] }] .yellow = .yellow := by
  rfl

/-- C2: the concrete exit-code table of `calculateExitCode`, and the fact
that omitting `failOn` behaves exactly like `failOn = "red"`. -/
theorem calculateExitCode_table :
    calculateExitCode .green none = 0 ∧
    calculateExitCode .yellow none = 2 ∧
    calculateExitCode .red none = 3 ∧
    calculateExitCode .yellow (some .yellow) = 0 ∧
    calculateExitCode .yellow (some .green) = 3 ∧
    calculateExitCode .green (some .green) = 0 ∧
    ∀ s : Severity, calculateExitCode s none = calculateExitCode s (some .red) := by
  decide

/-- C3: `PolicyManager.getExitCode` returns 3 on red, 3 on yellow under
`failOn = "yellow"`, 2 on yellow otherwise, and 0 on green; it disagrees
with `calculateExitCode` exactly at `(yellow, "yellow")` (3 versus 0) and
`(yellow, "green")` (2 versus 3), agreeing at every other pair. -/
theorem getExitCode_characterization_and_diff :
    (∀ (s : Severity) (f : Option FailOnPolicy),
       PolicyManager.getExitCode s f =
         (if s = .red then 3
          else if s = .yellow then (if f = some .yellow then 3 else 2)
          else 0)) ∧
    (∀ (s : Severity) (f : Option FailOnPolicy),
       PolicyManager.getExitCode s f ≠ calculateExitCode s f ↔
         ((s = .yellow ∧ f = some .yellow) ∨ (s = .yellow ∧ f = some .green))) ∧
    PolicyManager.getExitCode .yellow (some .yellow) = 3 ∧
    calculateExitCode .yellow (some .yellow) = 0 ∧
    PolicyManager.getExitCode .yellow (some .green) = 2 ∧
    calculateExitCode .yellow (some .green) = 3 := by
  decide

/-- C4: when the matching rule carries both `action: "fail"` and
`severityChange: "downgrade"`, `applyPolicy` first forces red and then
downgrades one step, so the emitted finding has severity yellow; the emitted
finding is a copy of the original with only the severity replaced (all other
fields unchanged — the input finding is never mutated). -/
theorem applyPolicy_fail_downgrade_emits_yellow :
    ∀ (findings : List Finding) (policy : PolicyConfig)
      (metrics : Option BaselineMetrics) (f : Finding) (rule : PolicyRule),
      f ∈ findings →
      findMatchingRule f.id (policy.rules.getD []) = some rule →
      rule.action = some .fail →
      rule.severityChange = some .downgrade →
      ∃ g ∈ (applyPolicy findings policy metrics).1,
        g.severity = .yellow ∧ g.id = f.id ∧ g.title = f.title ∧
        g.details = f.details ∧ g.hints = f.hints := by
  intro findings policy metrics f rule hf hrule hact hsc
  refine ⟨{ f with severity := .yellow }, ?_, rfl, rfl, rfl, rfl, rfl⟩
  rw [applyPolicy_modifiedFindings]
  apply List.mem_filterMap.mpr
  refine ⟨f, hf, ?_⟩
  unfold applyRuleToFinding
  rw [hrule]
  simp [hact, hsc, applySeverityChange]

/-- Witness for C4 at a concrete finding and rule. -/
theorem applyPolicy_fail_downgrade_emits_yellow_witness :
    ∃ g ∈ (applyPolicy
        [{ id := "deps.native_addons", title := "Native addons",
           severity := .green, details := ["uses node-gyp"], hints := [] }]
        { rules := some [{ id := "deps.native_addons", action := some .fail,
                           severityChange := some .downgrade }] }
        none).1,
      g.severity = .yellow ∧ g.id = "deps.native_addons" ∧
      g.title = "Native addons" ∧ g.details = ["uses node-gyp"] ∧
      g.hints = ([] : List String) :=
  applyPolicy_fail_downgrade_emits_yellow
    [{ id := "deps.native_addons", title := "Native addons",
       severity := .green, details := ["uses node-gyp"], hints := [] }]
    { rules := some [{ id := "deps.native_addons", action := some .fail,
                       severityChange := some .downgrade }] }
    none
    { id := "deps.native_addons", title := "Native addons",
      severity := .green, details := ["uses node-gyp"], hints := [] }
    { id := "deps.native_addons", action := some .fail,
      severityChange := some .downgrade }
    (by decide) (by decide) rfl rfl

/-- C5 counterexample: a rule carrying only `severityChange: "upgrade"`
applied to a finding that is already red leaves the final severity equal to
the original severity, yet `severityUpgraded` is incremented — the claim
that a finding is counted as upgraded exactly when final > original is
false on the code. -/
theorem applyPolicy_counts_upgrade_without_severity_increase :
    (applyPolicy
        [{ id := "deps.native_addons", title := "t", severity := .red,
           details := [], hints := [] }]
        { rules := some [{ id := "deps.native_addons",
                           severityChange := some .upgrade }] }
        none).2.severityUpgraded = 1 ∧
    (applyPolicy
        [{ id := "deps.native_addons", title := "t", severity := .red,
           details := [], hints := [] }]
        { rules := some [{ id := "deps.native_addons",
                           severityChange := some .upgrade }] }
        none).1 =
      [{ id := "deps.native_addons", title := "t", severity := .red,
         details := [], hints := [] }] := by
  decide

/-- C6 counterexample: `parseRuleArgs` splits with `arg.split(/[=:]/, 2)`,
which truncates the combined form `<id>=<action>:<severityChange>` to its
first two segments, so the severityChange suffix is discarded: the parsed
rule carries the action but `severityChange := none`, not the combined rule
the claim describes. -/
theorem parseRuleArgs_combined_arg_loses_severity_change :
    parseRuleArgs ["deps.native_addons=fail:downgrade"] =
      [{ id := "deps.native_addons", action := some .fail,
         severityChange := none, reason := none }] := by
  decide

/-- C6 amended: for every CLI rule argument of the form
`<id>=<action>:<severityChange>` (with a well-formed id), `parseRuleArgs`
produces a single rule carrying that id and that action only — the
`:<severityChange>` suffix is dropped by the 2-limited split, so no
combined rule is ever produced. -/
theorem parseRuleArgs_combined_format_drops_change :
    ∀ (id : String) (act : RuleAction) (sc : SeverityChange),
      (∀ c ∈ id.data, isRuleSep c = false) →
      jsTrim id = id → id ≠ "" →
      parseRuleArgs [id ++ "=" ++ actionString act ++ ":" ++ changeString sc] =
        [{ id := id, action := some act }] := by
  intro id act sc hid htrim hne
  unfold parseRuleArgs
  simp only [List.foldl_cons, List.foldl_nil]
  rw [jsSplitLimit_combined id (actionString act) (changeString sc) hid
    (actionString_no_sep act) (changeString_no_sep sc)]
  simp [htrim, jsTrim_actionString, hne, actionString_ne_empty,
    ruleActionOfString_actionString]

/-- Witness for C6 amended at a concrete id, action and severityChange. -/
theorem parseRuleArgs_combined_format_drops_change_witness :
    parseRuleArgs
        ["deps.native_addons" ++ "=" ++ actionString .fail ++ ":" ++
          changeString .downgrade] =
      [{ id := "deps.native_addons", action := some RuleAction.fail }] :=
  parseRuleArgs_combined_format_drops_change "deps.native_addons" .fail
    .downgrade (by decide) (by decide) (by decide)

theorem charListLe_total : ∀ (a b : List Char),
    charListLe a b = true ∨ charListLe b a = true := by
  intro a
  induction a with
  | nil => intro b; left; rfl
  | cons x xs ih =>
    intro b
    cases b with
    | nil => right; rfl
    | cons y ys =>
      rcases Nat.lt_trichotomy x.toNat y.toNat with h | h | h
      · left; simp [charListLe, h]
      · have h1 : ¬ x.toNat < y.toNat := by omega
        have h2 : ¬ y.toNat < x.toNat := by omega
        rcases ih ys with hc | hc
        · left; simp [charListLe, h1, h2, hc]
        · right; simp [charListLe, h1, h2, hc]
      · right; simp [charListLe, h]

theorem charListLe_trans : ∀ (a b c : List Char),
    charListLe a b = true → charListLe b c = true →
      charListLe a c = true := by
  intro a
  induction a with
  | nil => intro b c _ _; rfl
  | cons x xs ih =>
    intro b c hab hbc
    cases b with
    | nil => exact absurd hab (by simp [charListLe])
    | cons y ys =>
      cases c with
      | nil => exact absurd hbc (by simp [charListLe])
      | cons z zs =>
        simp only [charListLe] at hab hbc ⊢
        split_ifs at hab hbc ⊢ <;>
          first
          | rfl
          | omega
          | exact ih ys zs hab hbc

theorem charListLe_antisymm : ∀ (a b : List Char),
    charListLe a b = true → charListLe b a = true → a = b := by
  intro a
  induction a with
  | nil =>
    intro b hab hba
    cases b with
    | nil => rfl
    | cons y ys => exact absurd hba (by simp [charListLe])
  | cons x xs ih =>
    intro b hab hba
    cases b with
    | nil => exact absurd hab (by simp [charListLe])
    | cons y ys =>
      by_cases h1 : x.toNat < y.toNat
      · exfalso
        simp [charListLe, h1] at hba
        omega
      · by_cases h2 : y.toNat < x.toNat
        · exfalso
          simp [charListLe, h1, h2] at hab
        · have hn : x.toNat = y.toNat := by omega
          have hx : x = y := Char.ext (UInt32.toNat.inj hn)
          have hrec1 : charListLe xs ys = true := by
            simpa [charListLe, h1, h2] using hab
          have hrec2 : charListLe ys xs = true := by
            simpa [charListLe, h1, h2] using hba
          rw [hx, ih ys hrec1 hrec2]

theorem insertionSort_jsStrLeR_perm_eq {l1 l2 : List String}
    (h : l1.Perm l2) :
    List.insertionSort jsStrLeR l1 = List.insertionSort jsStrLeR l2 := by
  haveI : IsTotal String jsStrLeR :=
    ⟨fun a b => charListLe_total a.data b.data⟩
  haveI : IsTrans String jsStrLeR :=
    ⟨fun a b c => charListLe_trans a.data b.data c.data⟩
  haveI : IsAntisymm String jsStrLeR := ⟨fun a b hab hba => by
    obtain ⟨la⟩ := a
    obtain ⟨lb⟩ := b
    exact congrArg String.mk (charListLe_antisymm la lb hab hba)⟩
  exact List.eq_of_perm_of_sorted
    ((List.perm_insertionSort jsStrLeR l1).trans
      (h.trans (List.perm_insertionSort jsStrLeR l2).symm))
    (List.sorted_insertionSort jsStrLeR l1)
    (List.sorted_insertionSort jsStrLeR l2)

/-- C7: `createFindingFingerprint` is deterministic, and its `detailsHash`
is invariant under reordering and per-character case change of the details
list: whenever the trimmed-lowercased details multisets of two findings
coincide, the two fingerprints carry equal `detailsHash`. -/
theorem createFindingFingerprint_detailsHash_invariant :
    (∀ (f : Finding) (p : Option String),
       (createFindingFingerprint f p).detailsHash =
         (createFindingFingerprint f p).detailsHash) ∧
    (∀ (f g : Finding) (p q : Option String),
       (f.details.map (fun d => jsToLower (jsTrim d))).Perm
           (g.details.map (fun d => jsToLower (jsTrim d))) →
       (createFindingFingerprint f p).detailsHash =
         (createFindingFingerprint g q).detailsHash) := by
  constructor
  · intro f p
    rfl
  · intro f g p q h
    exact congrArg (fun l => md5Hex (String.intercalate "|" l))
      (insertionSort_jsStrLeR_perm_eq h)

/-- Witness for C7 at the spec's own example: details `["A", "b"]` against
`["b", "a"]` fingerprint identically. -/
theorem createFindingFingerprint_detailsHash_invariant_witness :
    (createFindingFingerprint
       { id := "deps.native_addons", title := "t", severity := .yellow,
         details := ["A", "b"], hints := [] } none).detailsHash =
    (createFindingFingerprint
       { id := "deps.native_addons", title := "t", severity := .yellow,
         details := ["b", "a"], hints := [] } none).detailsHash :=
  createFindingFingerprint_detailsHash_invariant.2
    { id := "deps.native_addons", title := "t", severity := .yellow,
      details := ["A", "b"], hints := [] }
    { id := "deps.native_addons", title := "t", severity := .yellow,
      details := ["b", "a"], hints := [] }
    none none (by decide)

theorem mapSet_pairwise_keys (m : FingerprintMap) (k : String)
    (v : FindingFingerprint) (h : m.Pairwise (fun p q => p.1 ≠ q.1)) :
    (mapSet m k v).Pairwise (fun p q => p.1 ≠ q.1) := by
  unfold mapSet
  split_ifs with hany
  · rw [List.pairwise_map]
    have hf : ∀ p : String × FindingFingerprint,
        (if p.1 == k then ((k, v) : String × FindingFingerprint) else p).1 =
          p.1 := by
      intro p
      by_cases hp : p.1 = k
      · simp [hp]
      · simp [hp]
    exact h.imp (fun hab => by simpa only [hf] using hab)
  · rw [List.pairwise_append]
    refine ⟨h, List.pairwise_singleton _ _, ?_⟩
    intro a ha b hb
    simp only [List.mem_singleton] at hb
    subst hb
    intro hak
    exact hany (List.any_eq_true.mpr ⟨a, ha, by simp [hak]⟩)

theorem buildFingerprintMap_pairwise_keys (fps : List FindingFingerprint) :
    (buildFingerprintMap fps).Pairwise (fun p q => p.1 ≠ q.1) := by
  have haux : ∀ (l : List FindingFingerprint) (acc : FingerprintMap),
      acc.Pairwise (fun p q => p.1 ≠ q.1) →
      (l.foldl (fun m fp => mapSet m (fpKey fp) fp) acc).Pairwise
        (fun p q => p.1 ≠ q.1) := by
    intro l
    induction l with
    | nil => intro acc h; exact h
    | cons fp rest ih =>
      intro acc h
      exact ih _ (mapSet_pairwise_keys _ _ _ h)
  exact haux fps [] List.Pairwise.nil

theorem mapGet_of_mem_pairwise (m : FingerprintMap)
    (h : m.Pairwise (fun p q => p.1 ≠ q.1)) (kv : String × FindingFingerprint)
    (hm : kv ∈ m) : mapGet m kv.1 = some kv.2 := by
  induction m with
  | nil => cases hm
  | cons p rest ih =>
    rcases List.mem_cons.mp hm with heq | hm2
    · subst heq
      unfold mapGet
      rw [List.find?_cons_of_pos _ (by simp)]
      rfl
    · have hne : p.1 ≠ kv.1 := (List.pairwise_cons.mp h).1 kv hm2
      unfold mapGet
      rw [List.find?_cons_of_neg _ (by simp [hne])]
      exact ih (List.pairwise_cons.mp h).2 hm2

theorem mapHas_of_mem (m : FingerprintMap) (kv : String × FindingFingerprint)
    (hm : kv ∈ m) : mapHas m kv.1 = true :=
  List.any_eq_true.mpr ⟨kv, hm, by simp⟩

theorem compareFindings_self_empty (X : List FindingFingerprint) :
    compareFindings X X =
      { newFindings := [], resolvedFindings := [], severityChanges := [],
        isRegression := false, regressionReasons := [] } := by
  have hpw := buildFingerprintMap_pairwise_keys X
  have h1 : (compareFindings X X).newFindings = [] :=
    List.filterMap_eq_nil_iff.mpr
      (fun kv hkv => by simp [mapHas_of_mem _ kv hkv])
  have h2 : (compareFindings X X).resolvedFindings = [] :=
    List.filterMap_eq_nil_iff.mpr
      (fun kv hkv => by simp [mapHas_of_mem _ kv hkv])
  have h3 : (compareFindings X X).severityChanges = [] :=
    List.filterMap_eq_nil_iff.mpr
      (fun kv hkv => by rw [mapGet_of_mem_pairwise _ hpw kv hkv]; simp)
  have heta : compareFindings X X =
      { newFindings := (compareFindings X X).newFindings,
        resolvedFindings := (compareFindings X X).resolvedFindings,
        severityChanges := (compareFindings X X).severityChanges,
        isRegression := (compareFindings X X).isRegression,
        regressionReasons := (compareFindings X X).regressionReasons } := rfl
  have hreg : (compareFindings X X).isRegression =
      (decide (0 < ((compareFindings X X).newFindings.filter
          (fun f => f.severity == .red)).length) ||
       decide (0 < ((compareFindings X X).severityChanges.filter
          (fun c => c.newSeverity == .red)).length)) := rfl
  have hreas : (compareFindings X X).regressionReasons =
      ((if 0 < ((compareFindings X X).newFindings.filter
            (fun f => f.severity == .red)).length
        then [newRedMessage ((compareFindings X X).newFindings.filter
            (fun f => f.severity == .red))] else []) ++
       (if 0 < ((compareFindings X X).severityChanges.filter
            (fun c => c.newSeverity == .red)).length
        then [upgradedToRedMessage ((compareFindings X X).severityChanges.filter
            (fun c => c.newSeverity == .red))] else [])) := rfl
  rw [heta, hreg, hreas, h1, h2, h3]
  simp

theorem foldl_mapSet_fresh :
    ∀ (l : List FindingFingerprint) (acc : FingerprintMap),
      (∀ fp ∈ l, mapHas acc (fpKey fp) = false) →
      l.Pairwise (fun a b => fpKey a ≠ fpKey b) →
      l.foldl (fun m fp => mapSet m (fpKey fp) fp) acc =
        acc ++ l.map (fun fp => (fpKey fp, fp)) := by
  intro l
  induction l with
  | nil => intro acc _ _; simp
  | cons fp rest ih =>
    intro acc hfresh hpw
    simp only [List.foldl_cons, List.map_cons]
    have hfp := hfresh fp (List.mem_cons_self fp rest)
    unfold mapHas at hfp
    have h1 : mapSet acc (fpKey fp) fp = acc ++ [(fpKey fp, fp)] := by
      unfold mapSet
      rw [if_neg (by simp [hfp])]
    rw [h1, ih (acc ++ [(fpKey fp, fp)]) ?_ (List.pairwise_cons.mp hpw).2]
    · simp
    · intro q hq
      have hq1 : mapHas acc (fpKey q) = false :=
        hfresh q (List.mem_cons_of_mem _ hq)
      have hq2 : fpKey fp ≠ fpKey q := (List.pairwise_cons.mp hpw).1 q hq
      unfold mapHas at hq1 ⊢
      rw [List.any_append, hq1]
      simp [hq2]

theorem buildFingerprintMap_of_pairwise (fps : List FindingFingerprint)
    (h : fps.Pairwise (fun a b => fpKey a ≠ fpKey b)) :
    buildFingerprintMap fps = fps.map (fun fp => (fpKey fp, fp)) := by
  have haux := foldl_mapSet_fresh fps [] (fun fp _ => rfl) h
  simpa [buildFingerprintMap] using haux

theorem mapGet_map_pair (fps : List FindingFingerprint)
    (h : fps.Pairwise (fun a b => fpKey a ≠ fpKey b))
    (bf : FindingFingerprint) (hm : bf ∈ fps) :
    mapGet (fps.map (fun fp => (fpKey fp, fp))) (fpKey bf) = some bf := by
  have hpw : (fps.map (fun fp => (fpKey fp, fp))).Pairwise
      (fun p q => p.1 ≠ q.1) := by
    rw [List.pairwise_map]
    exact h
  exact mapGet_of_mem_pairwise _ hpw (fpKey bf, bf) (List.mem_map_of_mem _ hm)

theorem mapHas_map_pair_of_mem (fps : List FindingFingerprint)
    (bf : FindingFingerprint) (hm : bf ∈ fps) :
    mapHas (fps.map (fun fp => (fpKey fp, fp))) (fpKey bf) = true :=
  mapHas_of_mem _ (fpKey bf, bf) (List.mem_map_of_mem _ hm)

theorem filterMap_filter_key_nil {α β : Type} (key : α → String)
    (keyE : β → String) (g : α → Option β)
    (hg : ∀ x e, g x = some e → keyE e = key x) (K : String)
    (l : List α) (hl : ∀ x ∈ l, key x ≠ K) :
    (l.filterMap g).filter (fun e => keyE e == K) = [] := by
  rw [List.filter_eq_nil_iff]
  intro e he
  obtain ⟨b, hb, hgb⟩ := List.mem_filterMap.mp he
  have hk := hg b e hgb
  simp [hk, hl b hb]

theorem filterMap_filter_key_unique {α β : Type} (key : α → String)
    (keyE : β → String) (g : α → Option β)
    (hg : ∀ x e, g x = some e → keyE e = key x) :
    ∀ (l : List α), l.Pairwise (fun a b => key a ≠ key b) →
      ∀ a ∈ l, (l.filterMap g).filter (fun e => keyE e == key a) =
        (g a).toList := by
  intro l
  induction l with
  | nil => intro _ a ha; cases ha
  | cons x xs ih =>
    intro hpw a ha
    have hx : ∀ b ∈ xs, key x ≠ key b := (List.pairwise_cons.mp hpw).1
    rcases List.mem_cons.mp ha with heq | ha2
    · subst heq
      cases hgx : g a with
      | none =>
        simp only [List.filterMap_cons, hgx]
        rw [filterMap_filter_key_nil key keyE g hg (key a) xs
          (fun b hb => (hx b hb).symm)]
        rfl
      | some e =>
        simp only [List.filterMap_cons, hgx]
        rw [List.filter_cons]
        have hke : keyE e = key a := hg a e hgx
        rw [if_pos (by simp [hke])]
        rw [filterMap_filter_key_nil key keyE g hg (key a) xs
          (fun b hb => (hx b hb).symm)]
        rfl
    · have hne : key x ≠ key a := hx a ha2
      cases hgx : g x with
      | none =>
        simp only [List.filterMap_cons, hgx]
        exact ih (List.pairwise_cons.mp hpw).2 a ha2
      | some e =>
        simp only [List.filterMap_cons, hgx]
        rw [List.filter_cons]
        have hke : keyE e = key x := hg x e hgx
        rw [if_neg (by simp [hke]; exact hne)]
        exact ih (List.pairwise_cons.mp hpw).2 a ha2

/-- C9: a fingerprint present (by composite key) in both sides with
differing severities is recorded exactly once in `severityChanges`, with the
baseline severity as `oldSeverity` and the current severity as
`newSeverity`, and its key appears in neither `newFindings` nor
`resolvedFindings`; and comparing a set against itself yields empty diffs
and no regression. -/
theorem compareFindings_severity_change_tracking :
    (∀ (baseline current : List FindingFingerprint)
       (bf cf : FindingFingerprint),
       baseline.Pairwise (fun a b => fpKey a ≠ fpKey b) →
       current.Pairwise (fun a b => fpKey a ≠ fpKey b) →
       bf ∈ baseline → cf ∈ current →
       fpKey bf = fpKey cf →
       bf.severity ≠ cf.severity →
       ((compareFindings baseline current).severityChanges.filter
           (fun e => fpKey e.fingerprint == fpKey cf)) =
         [{ fingerprint := cf, oldSeverity := bf.severity,
            newSeverity := cf.severity }] ∧
       ((compareFindings baseline current).newFindings.filter
           (fun f => fpKey f == fpKey cf)) = [] ∧
       ((compareFindings baseline current).resolvedFindings.filter
           (fun f => fpKey f == fpKey cf)) = []) ∧
    (∀ X : List FindingFingerprint,
       compareFindings X X =
         { newFindings := [], resolvedFindings := [], severityChanges := [],
           isRegression := false, regressionReasons := [] }) := by
  constructor
  · intro baseline current bf cf hpwb hpwc hbm hcm hkey hsev
    have hb := buildFingerprintMap_of_pairwise baseline hpwb
    have hc := buildFingerprintMap_of_pairwise current hpwc
    have hsevC : (compareFindings baseline current).severityChanges =
        current.filterMap (fun fp =>
          match mapGet (buildFingerprintMap baseline) (fpKey fp) with
          | some baselineFp =>
            if fp.severity ≠ baselineFp.severity then
              some { fingerprint := fp, oldSeverity := baselineFp.severity,
                     newSeverity := fp.severity }
            else none
          | none => none) := by
      show (buildFingerprintMap current).filterMap _ = _
      rw [hc, List.filterMap_map]
      rfl
    have hnewC : (compareFindings baseline current).newFindings =
        current.filterMap (fun fp =>
          if mapHas (buildFingerprintMap baseline) (fpKey fp) then none
          else some fp) := by
      show (buildFingerprintMap current).filterMap _ = _
      rw [hc, List.filterMap_map]
      rfl
    have hresC : (compareFindings baseline current).resolvedFindings =
        baseline.filterMap (fun fp =>
          if mapHas (buildFingerprintMap current) (fpKey fp) then none
          else some fp) := by
      show (buildFingerprintMap baseline).filterMap _ = _
      rw [hb, List.filterMap_map]
      rfl
    have hgsev : ∀ (x : FindingFingerprint) (e : SeverityChangeEntry),
        (match mapGet (buildFingerprintMap baseline) (fpKey x) with
         | some baselineFp =>
           if x.severity ≠ baselineFp.severity then
             some { fingerprint := x, oldSeverity := baselineFp.severity,
                    newSeverity := x.severity }
           else none
         | none => none) = some e → fpKey e.fingerprint = fpKey x := by
      intro x e hge
      split at hge
      · split at hge
        · cases hge
          rfl
        · cases hge
      · cases hge
    have hgnew : ∀ (x e : FindingFingerprint),
        (if mapHas (buildFingerprintMap baseline) (fpKey x) then none
         else some x) = some e → fpKey e = fpKey x := by
      intro x e hge
      split at hge
      · cases hge
      · cases hge
        rfl
    have hgres : ∀ (x e : FindingFingerprint),
        (if mapHas (buildFingerprintMap current) (fpKey x) then none
         else some x) = some e → fpKey e = fpKey x := by
      intro x e hge
      split at hge
      · cases hge
      · cases hge
        rfl
    refine ⟨?_, ?_, ?_⟩
    · rw [hsevC]
      have hone := filterMap_filter_key_unique fpKey
        (fun e : SeverityChangeEntry => fpKey e.fingerprint) _ hgsev
        current hpwc cf hcm
      rw [hone]
      rw [hb, ← hkey, mapGet_map_pair baseline hpwb bf hbm]
      show (if cf.severity ≠ bf.severity then
          some ({ fingerprint := cf, oldSeverity := bf.severity,
                  newSeverity := cf.severity } : SeverityChangeEntry)
        else none).toList = _
      rw [if_pos (fun hcontra => hsev (hcontra.symm))]
      rfl
    · rw [hnewC]
      have hone := filterMap_filter_key_unique fpKey fpKey _ hgnew
        current hpwc cf hcm
      rw [hone]
      rw [hb, ← hkey, mapHas_map_pair_of_mem baseline bf hbm]
      rfl
    · rw [hresC, ← hkey]
      have hone := filterMap_filter_key_unique fpKey fpKey _ hgres
        baseline hpwb bf hbm
      rw [hone]
      rw [hc, hkey, mapHas_map_pair_of_mem current cf hcm]
      rfl
  · exact compareFindings_self_empty

theorem filter_length_pos_iff {α : Type} (p : α → Bool) (l : List α) :
    0 < (l.filter p).length ↔ ∃ a ∈ l, p a = true := by
  rw [List.length_pos, Ne, List.filter_eq_nil_iff]
  push_neg
  simp

theorem newRedMessage_ne_upgradedToRedMessage
    (xs : List FindingFingerprint) (ys : List SeverityChangeEntry) :
    newRedMessage xs ≠ upgradedToRedMessage ys := by
  intro h
  have h1 : (newRedMessage xs).data.head? = some 'N' := rfl
  have h2 : (upgradedToRedMessage ys).data.head? = some 'S' := rfl
  rw [h, h2] at h1
  cases h1

/-- C8: `compareFindings` reports a regression exactly when some new finding
is red or some severity change lands on red; each triggering condition
appends its own reason string (the two strings are always distinct), and
with no trigger the reason list is empty. -/
theorem compareFindings_regression_rule :
    ∀ (baseline current : List FindingFingerprint),
      ((compareFindings baseline current).isRegression = true ↔
        (∃ f ∈ (compareFindings baseline current).newFindings,
           f.severity = .red) ∨
        (∃ c ∈ (compareFindings baseline current).severityChanges,
           c.newSeverity = .red)) ∧
      (compareFindings baseline current).regressionReasons =
        ((if ∃ f ∈ (compareFindings baseline current).newFindings,
              f.severity = .red
          then [newRedMessage
              ((compareFindings baseline current).newFindings.filter
                (fun f => f.severity == .red))]
          else []) ++
         (if ∃ c ∈ (compareFindings baseline current).severityChanges,
              c.newSeverity = .red
          then [upgradedToRedMessage
              ((compareFindings baseline current).severityChanges.filter
                (fun c => c.newSeverity == .red))]
          else [])) ∧
      (∀ (xs : List FindingFingerprint) (ys : List SeverityChangeEntry),
         newRedMessage xs ≠ upgradedToRedMessage ys) ∧
      ((compareFindings baseline current).isRegression = false →
        (compareFindings baseline current).regressionReasons = []) := by
  intro baseline current
  have hreg : (compareFindings baseline current).isRegression =
      (decide (0 < ((compareFindings baseline current).newFindings.filter
          (fun f => f.severity == .red)).length) ||
       decide (0 < ((compareFindings baseline current).severityChanges.filter
          (fun c => c.newSeverity == .red)).length)) := rfl
  have hreas : (compareFindings baseline current).regressionReasons =
      ((if 0 < ((compareFindings baseline current).newFindings.filter
            (fun f => f.severity == .red)).length
        then [newRedMessage
            ((compareFindings baseline current).newFindings.filter
              (fun f => f.severity == .red))]
        else []) ++
       (if 0 < ((compareFindings baseline current).severityChanges.filter
            (fun c => c.newSeverity == .red)).length
        then [upgradedToRedMessage
            ((compareFindings baseline current).severityChanges.filter
              (fun c => c.newSeverity == .red))]
        else [])) := rfl
  have hiff1 : (0 < ((compareFindings baseline current).newFindings.filter
      (fun f => f.severity == .red)).length) ↔
      (∃ f ∈ (compareFindings baseline current).newFindings,
        f.severity = .red) := by
    rw [filter_length_pos_iff]
    simp
  have hiff2 : (0 < ((compareFindings baseline current).severityChanges.filter
      (fun c => c.newSeverity == .red)).length) ↔
      (∃ c ∈ (compareFindings baseline current).severityChanges,
        c.newSeverity = .red) := by
    rw [filter_length_pos_iff]
    simp
  refine ⟨?_, ?_, newRedMessage_ne_upgradedToRedMessage, ?_⟩
  · rw [hreg]
    simp only [Bool.or_eq_true, decide_eq_true_eq]
    rw [hiff1, hiff2]
  · rw [hreas, if_congr hiff1 rfl rfl, if_congr hiff2 rfl rfl]
  · intro hfalse
    rw [hreg, Bool.or_eq_false_iff] at hfalse
    rw [decide_eq_false_iff_not, decide_eq_false_iff_not] at hfalse
    rw [hreas, if_neg hfalse.1, if_neg hfalse.2]
    rfl

/-- Witness for C8: a lone red current finding triggers a regression, and
an empty comparison yields no regression reasons. -/
theorem compareFindings_regression_rule_witness :
    (compareFindings []
        [{ id := "deps.native_addons", packageName := some "root",
           severity := .red, detailsHash := "h1" }]).isRegression = true ∧
    (compareFindings ([] : List FindingFingerprint) []).regressionReasons =
      [] :=
  ⟨(compareFindings_regression_rule []
      [{ id := "deps.native_addons", packageName := some "root",
         severity := .red, detailsHash := "h1" }]).1.mpr
      (Or.inl (by decide)),
   (compareFindings_regression_rule [] []).2.2.2 (by decide)⟩

/-- Witness for C9 at a concrete one-element baseline and current set. -/
theorem compareFindings_severity_change_tracking_witness :
    ((compareFindings
        [{ id := "deps.native_addons", packageName := some "root",
           severity := .yellow, detailsHash := "h1" }]
        [{ id := "deps.native_addons", packageName := some "root",
           severity := .red, detailsHash := "h1" }]).severityChanges.filter
        (fun e => fpKey e.fingerprint ==
          fpKey { id := "deps.native_addons", packageName := some "root",
                  severity := .red, detailsHash := "h1" }) =
      [{ fingerprint := { id := "deps.native_addons",
                          packageName := some "root", severity := .red,
                          detailsHash := "h1" },
         oldSeverity := .yellow, newSeverity := .red }]) ∧
    compareFindings
        [{ id := "lockfile.missing", packageName := some "root",
           severity := .yellow, detailsHash := "h2" }]
        [{ id := "lockfile.missing", packageName := some "root",
           severity := .yellow, detailsHash := "h2" }] =
      { newFindings := [], resolvedFindings := [], severityChanges := [],
        isRegression := false, regressionReasons := [] } :=
  ⟨(compareFindings_severity_change_tracking.1
      [{ id := "deps.native_addons", packageName := some "root",
         severity := .yellow, detailsHash := "h1" }]
      [{ id := "deps.native_addons", packageName := some "root",
         severity := .red, detailsHash := "h1" }]
      { id := "deps.native_addons", packageName := some "root",
        severity := .yellow, detailsHash := "h1" }
      { id := "deps.native_addons", packageName := some "root",
        severity := .red, detailsHash := "h1" }
      (List.pairwise_singleton _ _) (List.pairwise_singleton _ _)
      (by simp) (by simp) rfl (by decide)).1,
   compareFindings_severity_change_tracking.2
     [{ id := "lockfile.missing", packageName := some "root",
        severity := .yellow, detailsHash := "h2" }]⟩

/-- C10: `loadBaseline` is total (never throws): a failed read or parse
(`none` input, the `catch` path) yields null, a parsed value failing the
minimal shape check yields null, and it returns the parsed data unchanged
exactly when the minimal shape check passes — so a missing file and a
malformed file are indistinguishable to callers. -/
theorem loadBaseline_never_throws_and_validates :
    loadBaseline none = none ∧
    (∀ j : Json, hasMinimalBaselineShape j = true →
       loadBaseline (some j) = some j) ∧
    (∀ j : Json, hasMinimalBaselineShape j = false →
       loadBaseline (some j) = none) ∧
    (∀ (c : Option Json) (j : Json), loadBaseline c = some j →
       c = some j ∧ hasMinimalBaselineShape j = true) ∧
    (∀ j : Json, hasMinimalBaselineShape j = false →
       loadBaseline (some j) = loadBaseline none) := by
  refine ⟨rfl, ?_, ?_, ?_, ?_⟩
  · intro j h
    simp [loadBaseline, h]
  · intro j h
    simp [loadBaseline, h]
  · intro c j h
    cases c with
    | none => cases h
    | some d =>
      simp only [loadBaseline] at h
      split_ifs at h with hs
      injection h with h2
      subst h2
      exact ⟨rfl, hs⟩
  · intro j h
    simp [loadBaseline, h]

/-- Witness for C10: a well-shaped baseline JSON object is returned
unchanged; a malformed one (missing `findings`) yields null. -/
theorem loadBaseline_never_throws_and_validates_witness :
    loadBaseline (some (.obj [("version", .str "0.3"),
        ("timestamp", .str "2025-01-01T00:00:00.000Z"),
        ("repoPath", .str "/repo"), ("findings", .arr [])])) =
      some (.obj [("version", .str "0.3"),
        ("timestamp", .str "2025-01-01T00:00:00.000Z"),
        ("repoPath", .str "/repo"), ("findings", .arr [])]) ∧
    loadBaseline (some (.obj [("version", .str "0.3")])) = none :=
  ⟨loadBaseline_never_throws_and_validates.2.1
      (.obj [("version", .str "0.3"),
        ("timestamp", .str "2025-01-01T00:00:00.000Z"),
        ("repoPath", .str "/repo"), ("findings", .arr [])]) (by decide),
   loadBaseline_never_throws_and_validates.2.2.1
      (.obj [("version", .str "0.3")]) (by decide)⟩

/-- C5 amended: `severityUpgraded`/`severityDowngraded` count per finding
with a matching non-suppressing rule; when the rule carries a
`severityChange`, the counter of that change's direction is incremented
regardless of the final-versus-original comparison, and only when the rule
carries an action alone are the counters derived by comparing final against
original severity under green < yellow < red. -/
theorem applyPolicy_severity_counter_semantics :
    ∀ (findings : List Finding) (policy : PolicyConfig)
      (metrics : Option BaselineMetrics),
      (applyPolicy findings policy metrics).2.severityUpgraded =
        (findings.map (specUpgradeContribution (policy.rules.getD []))).sum ∧
      (applyPolicy findings policy metrics).2.severityDowngraded =
        (findings.map (specDowngradeContribution (policy.rules.getD []))).sum := by
  intro findings policy metrics
  constructor
  · rw [applyPolicy_severityUpgraded]
    have h : (fun f => (applyRuleToFinding (policy.rules.getD []) f).upgraded) =
        specUpgradeContribution (policy.rules.getD []) :=
      funext (applyRuleToFinding_upgraded_eq (policy.rules.getD []))
    rw [h]
  · rw [applyPolicy_severityDowngraded]
    have h : (fun f => (applyRuleToFinding (policy.rules.getD []) f).downgraded) =
        specDowngradeContribution (policy.rules.getD []) :=
      funext (applyRuleToFinding_downgraded_eq (policy.rules.getD []))
    rw [h]

end BunReady
